import Mathlib

/-!
Verification development for the retrieval-grounded streaming answer pipeline
of this repository (Next.js chat route, content filter, rate limiter, PDF page
tagger).  The TypeScript sources are shallowly embedded as executable Lean
definitions:

* JavaScript regular expressions are embedded through a small backtracking
  matcher (`Pat`) whose combinators mirror the JS semantics actually exercised
  by the embedded patterns: leftmost match, ordered alternation, greedy and
  lazy quantifiers, word boundaries over the ASCII word-character class,
  multiline anchors, the `g` flag's scan loop, and `String.replace`.
* Texts are modelled as `String` / `List Char`.  All characters appearing in
  the repository's data are in the Basic Multilingual Plane, so JS UTF-16
  code-unit indices and lengths coincide with character counts.
* `Date.now()` timestamps are modelled as integers (milliseconds).
-/

namespace NDMO

/-! ## Character classes and basic text utilities (JS semantics) -/

/-- JS `\d`: ASCII digits only. -/
def isDigitJS (c : Char) : Bool := '0' ≤ c && c ≤ '9'

/-- Character from a Unicode code point. -/
def uch (n : Nat) : Char := Char.ofNat n

/-- JS `\s`: whitespace and line terminators (ECMA-262 WhiteSpace ∪ LineTerminator). -/
def isSpaceJS (c : Char) : Bool :=
  c = ' ' || c = '\t' || c = '\n' || c = '\r' || c = '\x0b' || c = '\x0c' ||
  c = ' ' || c = ' ' || (' ' ≤ c && c ≤ ' ') ||
  c = ' ' || c = ' ' || c = ' ' || c = ' ' ||
  c = '　' || c = '﻿'

/-- JS `\w` (word character, no `u` flag): ASCII letters, digits, underscore. -/
def isWordJS (c : Char) : Bool :=
  ('a' ≤ c && c ≤ 'z') || ('A' ≤ c && c ≤ 'Z') || isDigitJS c || c = '_'

/-- JS `.` without the `s` flag: anything but a line terminator. -/
def isDotJS (c : Char) : Bool :=
  !(c = '\n' || c = '\r' || c = ' ' || c = ' ')

/-- Case folding used by the JS `i` flag; the embedded patterns only rely on
ASCII case-insensitivity. -/
def foldCI (c : Char) : Char := c.toLower

/-- Drop JS whitespace from the front of a character list. -/
def dropWhileSpace : List Char → List Char
  | [] => []
  | c :: cs => if isSpaceJS c then dropWhileSpace cs else c :: cs

/-- JS `String.prototype.trim`. -/
def jsTrimList (s : List Char) : List Char :=
  ((dropWhileSpace s.reverse).reverse : List Char) |> dropWhileSpace

/-- `jsTrimList` on `String`s. -/
def jsTrim (s : String) : String := String.mk (jsTrimList s.toList)

/-- Does `s` start with `pre`? (character-exact) -/
def startsWithL : List Char → List Char → Bool
  | _, [] => true
  | [], _ :: _ => false
  | c :: cs, p :: ps => c = p && startsWithL cs ps

/-- JS `String.prototype.includes`: is `sub` a contiguous substring of `s`? -/
def containsSub (s sub : List Char) : Bool :=
  match s with
  | [] => startsWithL [] sub
  | _ :: rest => startsWithL s sub || containsSub rest sub

/-- `containsSub` on `String`s. -/
def includesS (s sub : String) : Bool := containsSub s.toList sub.toList

/-- Replace the first occurrence of the literal substring `sub` by `repl`
(JS `String.prototype.replace` with a string pattern). -/
def replaceFirstSub : List Char → List Char → List Char → List Char
  | [], _, _ => []
  | c :: rest, sub, repl =>
    if startsWithL (c :: rest) sub then repl ++ (c :: rest).drop sub.length
    else c :: replaceFirstSub rest sub repl

/-- `parseInt` on a nonempty run of ASCII digits. -/
def parseNatDigits (ds : List Char) : Nat :=
  ds.foldl (fun n c => n * 10 + (c.toNat - 48)) 0

/-! ## A small backtracking matcher for the embedded JS regexes

A matcher receives the character immediately preceding the current position
(for word boundaries and multiline anchors) and the remaining input, and
returns every way it can match, most preferred first — exactly the order a JS
backtracking engine explores.  The head of the list is therefore the match JS
would produce. -/

/-- One way a pattern can match: the characters it consumed (in order), the
character now preceding the rest, the unconsumed rest, and a semantic value. -/
structure MRes (α : Type) where
  consumed : List Char
  prev : Option Char
  rest : List Char
  val : α
deriving Repr

/-- Nondeterministic pattern matcher, results in JS preference order. -/
def Pat (α : Type) : Type := Option Char → List Char → List (MRes α)

/-- Matcher that consumes nothing and yields `a`. -/
def pPure (a : α) : Pat α := fun prev rest => [⟨[], prev, rest, a⟩]

/-- Matcher with no match. -/
def pFail : Pat α := fun _ _ => []

/-- Sequencing: run `p`, then `f` on its value, concatenating consumption. -/
def pBind (p : Pat α) (f : α → Pat β) : Pat β := fun prev rest =>
  (p prev rest).flatMap fun r =>
    (f r.val r.prev r.rest).map fun r2 =>
      ⟨r.consumed ++ r2.consumed, r2.prev, r2.rest, r2.val⟩

/-- Map over the value of a matcher. -/
def pMap (f : α → β) (p : Pat α) : Pat β := fun prev rest =>
  (p prev rest).map fun r => ⟨r.consumed, r.prev, r.rest, f r.val⟩

/-- Sequence, keeping the second value. -/
def pThen (p : Pat α) (q : Pat β) : Pat β := pBind p fun _ => q

/-- Single character satisfying a predicate. -/
def pChar (f : Char → Bool) : Pat Char := fun _ rest =>
  match rest with
  | [] => []
  | c :: cs => if f c then [⟨[c], some c, cs, c⟩] else []

/-- Ordered alternation (JS `|`): earlier alternatives preferred. -/
def pAlt (ps : List (Pat α)) : Pat α := fun prev rest =>
  ps.flatMap fun p => p prev rest

/-- Greedy option (JS `x?`): prefer matching. -/
def pOpt (p : Pat α) : Pat (Option α) := fun prev rest =>
  ((p prev rest).map fun r => ⟨r.consumed, r.prev, r.rest, some r.val⟩) ++
  [⟨[], prev, rest, none⟩]

/-- Literal character-list match helper. -/
def matchLit : List Char → Option Char → List Char →
    Option (List Char × Option Char × List Char)
  | [], prev, rest => some ([], prev, rest)
  | c :: cs, _, rest =>
    match rest with
    | [] => none
    | r :: rs =>
      if r = c then
        (matchLit cs (some r) rs).map fun x => (r :: x.1, x.2.1, x.2.2)
      else none

/-- Case-insensitive literal character-list match helper. -/
def matchLitCI : List Char → Option Char → List Char →
    Option (List Char × Option Char × List Char)
  | [], prev, rest => some ([], prev, rest)
  | c :: cs, _, rest =>
    match rest with
    | [] => none
    | r :: rs =>
      if foldCI r = foldCI c then
        (matchLitCI cs (some r) rs).map fun x => (r :: x.1, x.2.1, x.2.2)
      else none

/-- Literal string (case-sensitive). -/
def pStr (s : String) : Pat Unit := fun prev rest =>
  match matchLit s.toList prev rest with
  | some (con, p, rst) => [⟨con, p, rst, ()⟩]
  | none => []

/-- Literal string under the JS `i` flag. -/
def pStrCI (s : String) : Pat Unit := fun prev rest =>
  match matchLitCI s.toList prev rest with
  | some (con, p, rst) => [⟨con, p, rst, ()⟩]
  | none => []

/-- Greedy repetition with an iteration bound (`fuel`); prefers more
iterations.  An iteration that consumes nothing ends the loop, as in JS. -/
def pManyG (p : Pat α) : Nat → Pat (List α)
  | 0 => pPure []
  | fuel + 1 => fun prev rest =>
    ((p prev rest).flatMap fun r =>
      if r.consumed.isEmpty then []
      else
        (pManyG p fuel r.prev r.rest).map fun r2 =>
          ⟨r.consumed ++ r2.consumed, r2.prev, r2.rest, r.val :: r2.val⟩) ++
    [⟨[], prev, rest, []⟩]

/-- Lazy repetition with an iteration bound; prefers fewer iterations. -/
def pManyLazy (p : Pat α) : Nat → Pat (List α)
  | 0 => pPure []
  | fuel + 1 => fun prev rest =>
    ⟨[], prev, rest, []⟩ ::
    ((p prev rest).flatMap fun r =>
      if r.consumed.isEmpty then []
      else
        (pManyLazy p fuel r.prev r.rest).map fun r2 =>
          ⟨r.consumed ++ r2.consumed, r2.prev, r2.rest, r.val :: r2.val⟩)

/-- JS `x*` (greedy): the input length bounds the iteration count because every
iteration consumes at least one character. -/
def pStar (p : Pat α) : Pat (List α) := fun prev rest =>
  pManyG p (rest.length + 1) prev rest

/-- JS `x+` (greedy). -/
def pPlus (p : Pat α) : Pat (List α) :=
  pBind p fun a => pMap (fun l => a :: l) (pStar p)

/-- JS `x*?` (lazy). -/
def pStarLazy (p : Pat α) : Pat (List α) := fun prev rest =>
  pManyLazy p (rest.length + 1) prev rest

/-- JS `x+?` (lazy). -/
def pPlusLazy (p : Pat α) : Pat (List α) :=
  pBind p fun a => pMap (fun l => a :: l) (pStarLazy p)

/-- JS `x{0,n}` (greedy bounded repetition). -/
def pBounded (p : Pat α) (n : Nat) : Pat (List α) := pManyG p n

/-- JS `\b` word boundary (ASCII word-character class, as without the `u` flag). -/
def pWordB : Pat Unit := fun prev rest =>
  let l := match prev with | some c => isWordJS c | none => false
  let r := match rest with | c :: _ => isWordJS c | [] => false
  if l != r then [⟨[], prev, rest, ()⟩] else []

/-- JS `^` with the `m` flag: start of input or after a line terminator. -/
def pBolM : Pat Unit := fun prev rest =>
  let ok := match prev with
    | none => true
    | some c => c = '\n' || c = '\r' || c = ' ' || c = ' '
  if ok then [⟨[], prev, rest, ()⟩] else []

/-- JS `$` with the `m` flag: end of input or before a line terminator. -/
def pEolM : Pat Unit := fun prev rest =>
  let ok := match rest with
    | [] => true
    | c :: _ => c = '\n' || c = '\r' || c = ' ' || c = ' '
  if ok then [⟨[], prev, rest, ()⟩] else []

/-- Capture: the value becomes the characters the sub-matcher consumed. -/
def pCap (p : Pat α) : Pat (List Char) := fun prev rest =>
  (p prev rest).map fun r => ⟨r.consumed, r.prev, r.rest, r.consumed⟩

/-- `\s*` (greedy), with unit value. -/
def pWsStar : Pat Unit := pMap (fun _ => ()) (pStar (pChar isSpaceJS))

/-- `\s+` (greedy), with unit value. -/
def pWsPlus : Pat Unit := pMap (fun _ => ()) (pPlus (pChar isSpaceJS))

/-- `\d+` capture as a number (`parseInt` of the digits). -/
def pNum : Pat Nat := pMap parseNatDigits (pCap (pPlus (pChar isDigitJS)))

/-! ### Driving the matcher: `exec` loops, `test`, and `replace` -/

/-- All matches of a `g`-flagged regex, with their start indices, reproducing
the `while ((m = re.exec(text)) !== null)` loop: scan left to right, resume
after each match, advance one position after a zero-length match. -/
def scanAllAux (p : Pat α) : Nat → Option Char → List Char → Nat → List (Nat × α)
  | 0, _, _, _ => []
  | fuel + 1, prev, rest, idx =>
    match (p prev rest).head? with
    | some r =>
      if r.consumed.isEmpty then
        (idx, r.val) ::
          (match rest with
           | [] => []
           | c :: cs => scanAllAux p fuel (some c) cs (idx + 1))
      else
        (idx, r.val) :: scanAllAux p fuel r.prev r.rest (idx + r.consumed.length)
    | none =>
      match rest with
      | [] => []
      | c :: cs => scanAllAux p fuel (some c) cs (idx + 1)

/-- All matches of a global regex over `s`, leftmost first. -/
def scanAll (p : Pat α) (s : List Char) : List (Nat × α) :=
  scanAllAux p (s.length + 1) none s 0

/-- First match of a regex (`String.prototype.match` without `g`). -/
def findFirstAux (p : Pat α) : Nat → Option Char → List Char → Option α
  | 0, _, _ => none
  | fuel + 1, prev, rest =>
    match (p prev rest).head? with
    | some r => some r.val
    | none =>
      match rest with
      | [] => none
      | c :: cs => findFirstAux p fuel (some c) cs

/-- First match of a regex over `s`. -/
def findFirst (p : Pat α) (s : List Char) : Option α :=
  findFirstAux p (s.length + 1) none s

/-- `RegExp.prototype.test`. -/
def testPat (p : Pat α) (s : List Char) : Bool := (findFirst p s).isSome

/-- `String.prototype.replace` with a `g`-flagged regex: replace every match by
`repl` (the embedded replacements use no capture references). -/
def replaceAllAux (p : Pat α) (repl : List Char) :
    Nat → Option Char → List Char → List Char
  | 0, _, rest => rest
  | fuel + 1, prev, rest =>
    match (p prev rest).head? with
    | some r =>
      if r.consumed.isEmpty then
        repl ++
          (match rest with
           | [] => []
           | c :: cs => c :: replaceAllAux p repl fuel (some c) cs)
      else repl ++ replaceAllAux p repl fuel r.prev r.rest
    | none =>
      match rest with
      | [] => []
      | c :: cs => c :: replaceAllAux p repl fuel (some c) cs

/-- Replace every match of `p` in `s` by `repl`. -/
def replaceAllP (p : Pat α) (repl : List Char) (s : List Char) : List Char :=
  replaceAllAux p repl (s.length + 1) none s

/-- `String.prototype.replace` with a non-global regex: replace the first
match only. -/
def replaceFirstAux (p : Pat α) (repl : List Char) :
    Nat → Option Char → List Char → List Char
  | 0, _, rest => rest
  | fuel + 1, prev, rest =>
    match (p prev rest).head? with
    | some r => repl ++ r.rest
    | none =>
      match rest with
      | [] => []
      | c :: cs => c :: replaceFirstAux p repl fuel (some c) cs

/-- Replace the first match of `p` in `s` by `repl`. -/
def replaceFirstP (p : Pat α) (repl : List Char) (s : List Char) : List Char :=
  replaceFirstAux p repl (s.length + 1) none s

/-! ## Data model: `Source`

From `src/types/index.ts` and the chat route (`page` is optional there; the
`snippet` field is only set by the dead helper `extractSourcesFromSearchResults`
and never flows into the route's accumulated list, so it is omitted). -/

/-- A citation: a document name and an optional 1-based page. -/
structure Source where
  document : String
  page : Option Nat := none
deriving DecidableEq, Repr

/-- String from a character list. -/
def strOf (cs : List Char) : String := String.mk cs

/-! ## CitationExtractor: `extractSourcesFromText` (chat route, current version)

Each `patN` transcribes the JS regex of the same number in the route. -/

/-- Pattern 1: `\[DOCUMENT:\s*(.+?)\s*\|\s*PAGE:\s*(\d+)\]`, value =
(captured document text, parsed page). -/
def pat1 : Pat (List Char × Nat) :=
  pBind (pStr "[DOCUMENT:") fun _ =>
  pBind pWsStar fun _ =>
  pBind (pCap (pPlusLazy (pChar isDotJS))) fun doc =>
  pBind pWsStar fun _ =>
  pBind (pStr "|") fun _ =>
  pBind pWsStar fun _ =>
  pBind (pStr "PAGE:") fun _ =>
  pBind pWsStar fun _ =>
  pBind pNum fun n =>
  pBind (pStr "]") fun _ =>
  pPure (doc, n)

/-- Pattern 2: `【(\d+):(\d+)†(.+?)】`, value = (2nd number, captured filename). -/
def pat2 : Pat (Nat × List Char) :=
  pBind (pStr "【") fun _ =>
  pBind pNum fun _ =>
  pBind (pStr ":") fun _ =>
  pBind pNum fun n2 =>
  pBind (pStr "†") fun _ =>
  pBind (pCap (pPlusLazy (pChar isDotJS))) fun doc =>
  pBind (pStr "】") fun _ =>
  pPure (n2, doc)

/-- Pattern 2b: `【(\d+)†(.+?)】`, value = captured filename. -/
def pat2b : Pat (List Char) :=
  pBind (pStr "【") fun _ =>
  pBind pNum fun _ =>
  pBind (pStr "†") fun _ =>
  pBind (pCap (pPlusLazy (pChar isDotJS))) fun doc =>
  pBind (pStr "】") fun _ =>
  pPure doc

/-- Pattern 2c: `【((?:Policies001|PoliciesEn001)\.(?:pdf|txt))】`. -/
def pat2c : Pat (List Char) :=
  pBind (pStr "【") fun _ =>
  pBind (pCap (
    pBind (pAlt [pStr "Policies001", pStr "PoliciesEn001"]) fun _ =>
    pBind (pStr ".") fun _ =>
    pMap (fun _ => ()) (pAlt [pStr "pdf", pStr "txt"]))) fun doc =>
  pBind (pStr "】") fun _ =>
  pPure doc

/-- The page-list block `صفحة\s*\d+(?:\s*[،,]\s*صفحة\s*\d+)*` of pattern 3. -/
def pat3Block : Pat Unit :=
  pBind (pStr "صفحة") fun _ =>
  pBind pWsStar fun _ =>
  pBind pNum fun _ =>
  pMap (fun _ => ()) (pStar (
    pBind pWsStar fun _ =>
    pBind (pChar (fun c => c = '،' || c = ',')) fun _ =>
    pBind pWsStar fun _ =>
    pBind (pStr "صفحة") fun _ =>
    pBind pWsStar fun _ =>
    pNum))

/-- Pattern 3: `(صفحة\s*\d+(?:\s*[،,]\s*صفحة\s*\d+)*)\s*من\s*(Policies001\.pdf|PoliciesEn001\.pdf)`,
value = (captured block, captured filename). -/
def pat3 : Pat (List Char × List Char) :=
  pBind (pCap pat3Block) fun block =>
  pBind pWsStar fun _ =>
  pBind (pStr "من") fun _ =>
  pBind pWsStar fun _ =>
  pBind (pCap (pMap (fun _ => ())
    (pAlt [pStr "Policies001.pdf", pStr "PoliciesEn001.pdf"]))) fun doc =>
  pPure (block, doc)

/-- The page-list block `Page\s*\d+(?:\s*,\s*Page\s*\d+)*` of pattern 3b
(`i` flag). -/
def pat3bBlock : Pat Unit :=
  pBind (pStrCI "Page") fun _ =>
  pBind pWsStar fun _ =>
  pBind pNum fun _ =>
  pMap (fun _ => ()) (pStar (
    pBind pWsStar fun _ =>
    pBind (pChar (fun c => c = ',')) fun _ =>
    pBind pWsStar fun _ =>
    pBind (pStrCI "Page") fun _ =>
    pBind pWsStar fun _ =>
    pNum))

/-- Pattern 3b: `(Page\s*\d+(?:\s*,\s*Page\s*\d+)*)\s*from\s*(Policies001\.pdf|PoliciesEn001\.pdf)`
with the `i` flag, value = (captured block, captured filename). -/
def pat3b : Pat (List Char × List Char) :=
  pBind (pCap pat3bBlock) fun block =>
  pBind pWsStar fun _ =>
  pBind (pStrCI "from") fun _ =>
  pBind pWsStar fun _ =>
  pBind (pCap (pMap (fun _ => ())
    (pAlt [pStrCI "Policies001.pdf", pStrCI "PoliciesEn001.pdf"]))) fun doc =>
  pPure (block, doc)

/-- Pattern 4: standalone `صفحة\s+(\d+)`. -/
def pat4 : Pat Nat :=
  pBind (pStr "صفحة") fun _ =>
  pBind pWsPlus fun _ =>
  pNum

/-- `[...block.matchAll(/\d+/g)].map(m => parseInt(m[0], 10))`. -/
def allNums (cs : List Char) : List Nat := (scanAll pNum cs).map (fun m => m.2)

/-- `text.slice(Math.max(0, i - 200), i + 200)` (all data is in the BMP, so
JS code-unit indices equal character indices). -/
def ctxSlice (s : List Char) (i : Nat) : List Char :=
  let a := i - 200
  (s.drop a).take (i + 200 - a)

/-- The route's `add` closure: normalise non-positive pages to "no page"
(`page && page > 0 ? page : undefined`), then push unless the key
`(document, page ?? 0)` is already present. -/
def addExtracted (l : List Source) (doc : String) (page : Option Nat) : List Source :=
  let p : Option Nat := match page with
    | some n => if 0 < n then some n else none
    | none => none
  if l.any (fun s => s.document = doc && s.page.getD 0 == p.getD 0) then l
  else l ++ [⟨doc, p⟩]

/-- All `add` calls `extractSourcesFromText` performs, in source order:
patterns 1, 2, 2b, 2c, 3 (one call per number in the block), 3b, then the
standalone pattern 4 resolved against the ±200-character context window. -/
def extractCandidates (s : List Char) : List (String × Option Nat) :=
  ((scanAll pat1 s).map fun m => (strOf (jsTrimList m.2.1), some m.2.2)) ++
  ((scanAll pat2 s).map fun m => (strOf (jsTrimList m.2.2), some m.2.1)) ++
  ((scanAll pat2b s).map fun m => (strOf (jsTrimList m.2), (none : Option Nat))) ++
  ((scanAll pat2c s).map fun m => (strOf (jsTrimList m.2), (none : Option Nat))) ++
  ((scanAll pat3 s).flatMap fun m =>
    (allNums m.2.1).map fun n => (strOf m.2.2, some n)) ++
  ((scanAll pat3b s).flatMap fun m =>
    (allNums m.2.1).map fun n => (strOf m.2.2, some n)) ++
  ((scanAll pat4 s).map fun m =>
    if containsSub (ctxSlice s m.1) "PoliciesEn001".toList then
      ("PoliciesEn001.pdf", some m.2)
    else ("Policies001.pdf", some m.2))

/-- `extractSourcesFromText` from the chat route: match every dialect, then
deduplicate through `add`. -/
def extractSourcesFromText (text : String) : List Source :=
  (extractCandidates text.toList).foldl (fun l c => addExtracted l c.1 c.2) []

/-! ## `extractPageFromChunkText` (chat route) -/

/-- `/page\s*[:=]\s*(\d+)/i` -/
def pp1 : Pat Nat :=
  pBind (pStrCI "page") fun _ =>
  pBind pWsStar fun _ =>
  pBind (pChar (fun c => c = ':' || c = '=')) fun _ =>
  pBind pWsStar fun _ => pNum

/-- `/صفحة\s*[:=]?\s*(\d+)/` -/
def pp2 : Pat Nat :=
  pBind (pStr "صفحة") fun _ =>
  pBind pWsStar fun _ =>
  pBind (pOpt (pChar (fun c => c = ':' || c = '='))) fun _ =>
  pBind pWsStar fun _ => pNum

/-- `/الصفحة\s*(\d+)/` -/
def pp3 : Pat Nat :=
  pBind (pStr "الصفحة") fun _ =>
  pBind pWsStar fun _ => pNum

/-- `/\bp\.\s*(\d+)\b/i` -/
def pp4 : Pat Nat :=
  pBind pWordB fun _ =>
  pBind (pStrCI "p") fun _ =>
  pBind (pStr ".") fun _ =>
  pBind pWsStar fun _ =>
  pBind pNum fun n =>
  pBind pWordB fun _ => pPure n

/-- `/–\s*(\d+)\s*of\s*\d+/` -/
def pp5 : Pat Nat :=
  pBind (pStr "–") fun _ =>
  pBind pWsStar fun _ =>
  pBind pNum fun n =>
  pBind pWsStar fun _ =>
  pBind (pStr "of") fun _ =>
  pBind pWsStar fun _ =>
  pBind pNum fun _ => pPure n

/-- `/—\s*(\d+)\s*—/` -/
def pp6 : Pat Nat :=
  pBind (pStr "—") fun _ =>
  pBind pWsStar fun _ =>
  pBind pNum fun n =>
  pBind pWsStar fun _ =>
  pBind (pStr "—") fun _ => pPure n

/-- `/^\s*(\d+)\s*\/\s*\d+\s*$/m` -/
def pp7 : Pat Nat :=
  pBind pBolM fun _ =>
  pBind pWsStar fun _ =>
  pBind pNum fun n =>
  pBind pWsStar fun _ =>
  pBind (pStr "/") fun _ =>
  pBind pWsStar fun _ =>
  pBind pNum fun _ =>
  pBind pWsStar fun _ =>
  pBind pEolM fun _ => pPure n

/-- `/\(صفحة\s*(\d+)\)/` -/
def pp8 : Pat Nat :=
  pBind (pStr "(صفحة") fun _ =>
  pBind pWsStar fun _ =>
  pBind pNum fun n =>
  pBind (pStr ")") fun _ => pPure n

/-- `/\(page\s*(\d+)\)/i` -/
def pp9 : Pat Nat :=
  pBind (pStr "(") fun _ =>
  pBind (pStrCI "page") fun _ =>
  pBind pWsStar fun _ =>
  pBind pNum fun n =>
  pBind (pStr ")") fun _ => pPure n

/-- The nine chunk-page patterns, in source order. -/
def chunkPagePatterns : List (Pat Nat) := [pp1, pp2, pp3, pp4, pp5, pp6, pp7, pp8, pp9]

/-- Try each pattern in order; keep the first whose captured number lies in
`(0, 10000)`, as the route does. -/
def firstChunkPage (s : List Char) : List (Pat Nat) → Option Nat
  | [] => none
  | p :: ps =>
    match findFirst p s with
    | some n => if 0 < n && n < 10000 then some n else firstChunkPage s ps
    | none => firstChunkPage s ps

/-- `extractPageFromChunkText` from the chat route (the falsy guard on empty
text is explicit). -/
def extractPageFromChunkText (text : String) : Option Nat :=
  if text = "" then none
  else firstChunkPage text.toList chunkPagePatterns

/-! ## Finalisation cleaning and output scrub -/

/-- `/【\d+:\d+†.+?】/g` (no captures needed when stripping). -/
def cstrip1 : Pat Unit :=
  pBind (pStr "【") fun _ =>
  pBind pNum fun _ =>
  pBind (pStr ":") fun _ =>
  pBind pNum fun _ =>
  pBind (pStr "†") fun _ =>
  pBind (pPlusLazy (pChar isDotJS)) fun _ =>
  pMap (fun _ => ()) (pStr "】")

/-- `/\[DOCUMENT:\s*.+?\s*\|\s*PAGE:\s*\d+\]/g` (stripping form). -/
def cstrip2 : Pat Unit :=
  pBind (pStr "[DOCUMENT:") fun _ =>
  pBind pWsStar fun _ =>
  pBind (pPlusLazy (pChar isDotJS)) fun _ =>
  pBind pWsStar fun _ =>
  pBind (pStr "|") fun _ =>
  pBind pWsStar fun _ =>
  pBind (pStr "PAGE:") fun _ =>
  pBind pWsStar fun _ =>
  pBind pNum fun _ =>
  pMap (fun _ => ()) (pStr "]")

/-- `/\n?\n?(Sources:|المصادر:)[\s\S]*$/m` (non-global: first match only). -/
def srcLinePat : Pat Unit :=
  pBind (pOpt (pChar (fun c => c = '\n'))) fun _ =>
  pBind (pOpt (pChar (fun c => c = '\n'))) fun _ =>
  pBind (pAlt [pStr "Sources:", pStr "المصادر:"]) fun _ =>
  pBind (pStar (pChar (fun _ => true))) fun _ =>
  pEolM

/-- `/\n{3,}/g`. -/
def threeNL : Pat Unit :=
  pBind (pStr "\n\n\n") fun _ =>
  pMap (fun _ => ()) (pStar (pChar (fun c => c = '\n')))

/-- The route's answer cleaning chain: strip annotation markers, strip
canonical markers, drop a trailing `Sources:`/`المصادر:` block, squeeze runs of
3+ newlines to 2, trim. -/
def cleanText (text : String) : String :=
  strOf (jsTrimList
    (replaceAllP threeNL "\n\n".toList
      (replaceFirstP srcLinePat []
        (replaceAllP cstrip2 []
          (replaceAllP cstrip1 [] text.toList)))))

/-- `/STRICT RULES[\s\S]{0,500}/gi` -/
def leak1 : Pat Unit :=
  pBind (pStrCI "STRICT RULES") fun _ =>
  pMap (fun _ => ()) (pBounded (pChar (fun _ => true)) 500)

/-- `/system\s*prompt[\s\S]{0,200}/gi` -/
def leak2 : Pat Unit :=
  pBind (pStrCI "system") fun _ =>
  pBind pWsStar fun _ =>
  pBind (pStrCI "prompt") fun _ =>
  pMap (fun _ => ()) (pBounded (pChar (fun _ => true)) 200)

/-- `/\[?SYSTEM\]?:[\s\S]{0,200}/gi` -/
def leak3 : Pat Unit :=
  pBind (pOpt (pChar (fun c => c = '['))) fun _ =>
  pBind (pStrCI "SYSTEM") fun _ =>
  pBind (pOpt (pChar (fun c => c = ']'))) fun _ =>
  pBind (pStr ":") fun _ =>
  pMap (fun _ => ()) (pBounded (pChar (fun _ => true)) 200)

/-- `filterOutput` from `src/lib/content-filter.ts`: scrub the leakage
patterns, then trim. -/
def filterOutput (text : String) : String :=
  strOf (jsTrimList
    (replaceAllP leak3 []
      (replaceAllP leak2 []
        (replaceAllP leak1 [] text.toList))))

/-! ## ContentFilter: `filterInput` (`src/lib/content-filter.ts`) -/

/-- Block category. -/
inductive FilterCategory where
  | inappropriate
  | injection
  | offtopic
deriving DecidableEq, Repr

/-- Result of `filterInput`. -/
structure FilterResult where
  blocked : Bool
  reason : Option String := none
  category : Option FilterCategory := none
deriving DecidableEq, Repr

/-- Ordered alternation of case-insensitive literal words. -/
def pWordsCI (ws : List String) : Pat Unit :=
  pMap (fun _ => ()) (pAlt (ws.map pStrCI))

/-- Ordered alternation of case-sensitive literal words. -/
def pWords (ws : List String) : Pat Unit :=
  pMap (fun _ => ()) (pAlt (ws.map pStr))

/-- `\b(...)\b` wrapper. -/
def bWord (p : Pat α) : Pat Unit :=
  pBind pWordB fun _ => pBind p fun _ => pWordB

/-- `.*` (greedy, no `s` flag). -/
def pDotStar : Pat Unit := pMap (fun _ => ()) (pStar (pChar isDotJS))

/-- `INAPPROPRIATE_PATTERNS`, in source order. -/
def inappropriatePatterns : List (Pat Unit) :=
  [ -- /\b(fuck|shit|damn|bitch|ass(?:hole)?|bastard|dick|cock|pussy|whore|slut|cunt|nigger|faggot|retard)\b/i
    bWord (pAlt [pStrCI "fuck", pStrCI "shit", pStrCI "damn", pStrCI "bitch",
      pBind (pStrCI "ass") (fun _ => pMap (fun _ => ()) (pOpt (pStrCI "hole"))),
      pStrCI "bastard", pStrCI "dick", pStrCI "cock", pStrCI "pussy",
      pStrCI "whore", pStrCI "slut", pStrCI "cunt", pStrCI "nigger",
      pStrCI "faggot", pStrCI "retard"]),
    -- /\b(porn|xxx|nude|naked|sex(?:ual)?|hentai|erotic)\b/i
    bWord (pAlt [pStrCI "porn", pStrCI "xxx", pStrCI "nude", pStrCI "naked",
      pBind (pStrCI "sex") (fun _ => pMap (fun _ => ()) (pOpt (pStrCI "ual"))),
      pStrCI "hentai", pStrCI "erotic"]),
    -- /\b(kill\s+(?:you|him|her|them|myself)|murder|suicide|bomb|terrorist|terrorism)\b/i
    bWord (pAlt [
      pBind (pStrCI "kill") (fun _ => pBind pWsPlus (fun _ =>
        pWordsCI ["you", "him", "her", "them", "myself"])),
      pStrCI "murder", pStrCI "suicide", pStrCI "bomb",
      pStrCI "terrorist", pStrCI "terrorism"]),
    -- /\b(drug\s+deal|cocaine|heroin|meth(?:amphetamine)?)\b/i
    bWord (pAlt [
      pBind (pStrCI "drug") (fun _ => pBind pWsPlus (fun _ => pStrCI "deal")),
      pStrCI "cocaine", pStrCI "heroin",
      pBind (pStrCI "meth") (fun _ => pMap (fun _ => ()) (pOpt (pStrCI "amphetamine")))]),
    -- /\b(كس\s*أم|كسم|طيز|زب|شرموط|عرص|متناك|منيوك|قحب|لعن|يلعن)\b/
    bWord (pAlt [
      pBind (pStr "كس") (fun _ => pBind pWsStar (fun _ => pStr "أم")),
      pStr "كسم", pStr "طيز", pStr "زب", pStr "شرموط", pStr "عرص",
      pStr "متناك", pStr "منيوك", pStr "قحب", pStr "لعن", pStr "يلعن"]),
    -- /\b(نيك|انيك|ينيك|تنيك|منيوك)\b/
    bWord (pWords ["نيك", "انيك", "ينيك", "تنيك", "منيوك"]),
    -- /\b(حمار|كلب|حيوان|خنزير)\b.*\b(انت|أنت|يا)\b/
    pBind (bWord (pWords ["حمار", "كلب", "حيوان", "خنزير"])) (fun _ =>
      pBind pDotStar (fun _ => bWord (pWords ["انت", "أنت", "يا"]))),
    -- /\b(يا)\b.*\b(حمار|كلب|حيوان|خنزير|غبي|أحمق|أهبل)\b/
    pBind (bWord (pStr "يا")) (fun _ =>
      pBind pDotStar (fun _ =>
        bWord (pWords ["حمار", "كلب", "حيوان", "خنزير", "غبي", "أحمق", "أهبل"]))) ]

/-- The literal `you're` (built explicitly to keep the file ASCII-clean). -/
def youreLit : String := strOf ['y', 'o', 'u', uch 39, 'r', 'e']

/-- `INJECTION_PATTERNS`, in source order. -/
def injectionPatterns : List (Pat Unit) :=
  [ -- /ignore\s+(all\s+)?previous\s+(instructions|rules|prompts)/i
    pBind (pStrCI "ignore") (fun _ => pBind pWsPlus (fun _ =>
      pBind (pOpt (pBind (pStrCI "all") (fun _ => pWsPlus))) (fun _ =>
        pBind (pStrCI "previous") (fun _ => pBind pWsPlus (fun _ =>
          pWordsCI ["instructions", "rules", "prompts"]))))),
    -- /ignore\s+(the\s+)?(above|system)\s+(prompt|instructions|rules)/i
    pBind (pStrCI "ignore") (fun _ => pBind pWsPlus (fun _ =>
      pBind (pOpt (pBind (pStrCI "the") (fun _ => pWsPlus))) (fun _ =>
        pBind (pWordsCI ["above", "system"]) (fun _ => pBind pWsPlus (fun _ =>
          pWordsCI ["prompt", "instructions", "rules"]))))),
    -- /you\s+are\s+now\s+(a|an|my)/i
    pBind (pStrCI "you") (fun _ => pBind pWsPlus (fun _ =>
      pBind (pStrCI "are") (fun _ => pBind pWsPlus (fun _ =>
        pBind (pStrCI "now") (fun _ => pBind pWsPlus (fun _ =>
          pWordsCI ["a", "an", "my"])))))),
    -- /pretend\s+(you\s+are|to\s+be|you're)/i
    pBind (pStrCI "pretend") (fun _ => pBind pWsPlus (fun _ =>
      pAlt [pBind (pStrCI "you") (fun _ => pBind pWsPlus (fun _ => pStrCI "are")),
            pBind (pStrCI "to") (fun _ => pBind pWsPlus (fun _ => pStrCI "be")),
            pStrCI youreLit])),
    -- /act\s+as\s+(a|an|if|though)/i
    pBind (pStrCI "act") (fun _ => pBind pWsPlus (fun _ =>
      pBind (pStrCI "as") (fun _ => pBind pWsPlus (fun _ =>
        pWordsCI ["a", "an", "if", "though"])))),
    -- /new\s+(instructions|rules|prompt|role)/i
    pBind (pStrCI "new") (fun _ => pBind pWsPlus (fun _ =>
      pWordsCI ["instructions", "rules", "prompt", "role"])),
    -- /forget\s+(everything|all|your|previous)/i
    pBind (pStrCI "forget") (fun _ => pBind pWsPlus (fun _ =>
      pWordsCI ["everything", "all", "your", "previous"])),
    -- /override\s+(your|the|all)\s+(rules|instructions|prompt)/i
    pBind (pStrCI "override") (fun _ => pBind pWsPlus (fun _ =>
      pBind (pWordsCI ["your", "the", "all"]) (fun _ => pBind pWsPlus (fun _ =>
        pWordsCI ["rules", "instructions", "prompt"])))),
    -- /reveal\s+(your|the)\s+(system\s+)?(prompt|instructions|rules)/i
    pBind (pStrCI "reveal") (fun _ => pBind pWsPlus (fun _ =>
      pBind (pWordsCI ["your", "the"]) (fun _ => pBind pWsPlus (fun _ =>
        pBind (pOpt (pBind (pStrCI "system") (fun _ => pWsPlus))) (fun _ =>
          pWordsCI ["prompt", "instructions", "rules"]))))),
    -- /what\s+(is|are)\s+your\s+(system\s+)?(prompt|instructions|rules)/i
    pBind (pStrCI "what") (fun _ => pBind pWsPlus (fun _ =>
      pBind (pWordsCI ["is", "are"]) (fun _ => pBind pWsPlus (fun _ =>
        pBind (pStrCI "your") (fun _ => pBind pWsPlus (fun _ =>
          pBind (pOpt (pBind (pStrCI "system") (fun _ => pWsPlus))) (fun _ =>
            pWordsCI ["prompt", "instructions", "rules"]))))))),
    -- /repeat\s+(your|the)\s+(system\s+)?(prompt|instructions)/i
    pBind (pStrCI "repeat") (fun _ => pBind pWsPlus (fun _ =>
      pBind (pWordsCI ["your", "the"]) (fun _ => pBind pWsPlus (fun _ =>
        pBind (pOpt (pBind (pStrCI "system") (fun _ => pWsPlus))) (fun _ =>
          pWordsCI ["prompt", "instructions"]))))),
    -- /jailbreak/i
    pStrCI "jailbreak",
    -- /DAN\s+mode/i
    pBind (pStrCI "DAN") (fun _ => pBind pWsPlus (fun _ => pStrCI "mode")),
    -- /developer\s+mode/i
    pBind (pStrCI "developer") (fun _ => pBind pWsPlus (fun _ => pStrCI "mode")),
    -- /تجاهل\s+(كل\s+)?التعليمات/
    pBind (pStr "تجاهل") (fun _ => pBind pWsPlus (fun _ =>
      pBind (pOpt (pBind (pStr "كل") (fun _ => pWsPlus))) (fun _ =>
        pStr "التعليمات"))),
    -- /تجاهل\s+(القواعد|الأوامر|النظام)/
    pBind (pStr "تجاهل") (fun _ => pBind pWsPlus (fun _ =>
      pWords ["القواعد", "الأوامر", "النظام"])),
    -- /تصرف\s+(كأنك|وكأنك|على\s+أنك)/
    pBind (pStr "تصرف") (fun _ => pBind pWsPlus (fun _ =>
      pAlt [pMap (fun _ => ()) (pStr "كأنك"), pMap (fun _ => ()) (pStr "وكأنك"),
            pBind (pStr "على") (fun _ => pBind pWsPlus (fun _ => pStr "أنك"))])),
    -- /تظاهر\s+(بأنك|أنك|إنك)/
    pBind (pStr "تظاهر") (fun _ => pBind pWsPlus (fun _ =>
      pWords ["بأنك", "أنك", "إنك"])),
    -- /أنسى?\s+(كل|جميع|التعليمات)/
    pBind (pStr "أنس") (fun _ =>
      pBind (pOpt (pChar (fun c => c = 'ى'))) (fun _ =>
        pBind pWsPlus (fun _ => pWords ["كل", "جميع", "التعليمات"]))),
    -- /اكشف\s+(لي\s+)?(التعليمات|الأوامر|النظام)/
    pBind (pStr "اكشف") (fun _ => pBind pWsPlus (fun _ =>
      pBind (pOpt (pBind (pStr "لي") (fun _ => pWsPlus))) (fun _ =>
        pWords ["التعليمات", "الأوامر", "النظام"]))),
    -- /ما\s+هي\s+تعليماتك/
    pBind (pStr "ما") (fun _ => pBind pWsPlus (fun _ =>
      pBind (pStr "هي") (fun _ => pBind pWsPlus (fun _ => pStr "تعليماتك")))),
    -- /أعد\s+(لي\s+)?تعليماتك/
    pBind (pStr "أعد") (fun _ => pBind pWsPlus (fun _ =>
      pBind (pOpt (pBind (pStr "لي") (fun _ => pWsPlus))) (fun _ =>
        pStr "تعليماتك"))) ]

/-- `filterInput`: trim, then — in this order — reject empty input, reject
input longer than 2000 (JS code units; all data is in the BMP), reject on the
first inappropriate-pattern match, reject on the first injection-pattern
match; otherwise pass.  The early `return` on each match is modelled by the
`if` cascade. -/
def filterInput (text : String) : FilterResult :=
  let normalized := jsTrimList text.toList
  if normalized.length = 0 then
    ⟨true, some "Empty message", some .offtopic⟩
  else if 2000 < normalized.length then
    ⟨true, some "Message too long", some .inappropriate⟩
  else if inappropriatePatterns.any (fun p => testPat p normalized) then
    ⟨true, some "Inappropriate content detected", some .inappropriate⟩
  else if injectionPatterns.any (fun p => testPat p normalized) then
    ⟨true, some "Invalid request", some .injection⟩
  else ⟨false, none, none⟩

/-! ## RateLimiter (`src/lib/rate-limiter.ts`, current version)

The module-level store maps `(endpoint, ip)` to a timestamp list; an admission
check is a pure function of that list and `Date.now()`, returning the result
and the updated list. -/

/-- Rejection reason. -/
inductive RLReason where
  | minute
  | daily
deriving DecidableEq, Repr

/-- Result of `checkRateLimit`. -/
structure RateResult where
  allowed : Bool
  retryAfterMs : Option Int := none
  reason : Option RLReason := none
deriving DecidableEq, Repr

/-- Endpoint selector. -/
inductive Endpoint where
  | chat
  | upload
deriving DecidableEq, Repr

/-- 1 minute window for burst protection. -/
def WINDOW_MS : Int := 60 * 1000

/-- 24 hours. -/
def DAILY_WINDOW_MS : Int := 24 * 60 * 60 * 1000

/-- Max 5 chat requests per minute (burst protection). -/
def MAX_REQUESTS_PER_MINUTE : Nat := 5

/-- Max 20 chat requests per day per user. -/
def MAX_REQUESTS_PER_DAY : Nat := 20

/-- Max 10 upload requests per minute. -/
def MAX_REQUESTS_UPLOAD : Nat := 10

/-- `checkRateLimit` on one entry: prune to the 24h window, then for `chat`
check the daily cap first and the burst cap second; on admission append `now`.
Timestamps are appended in arrival order, so the head is the oldest. -/
def checkRateLimit (timestamps : List Int) (now : Int) (endpoint : Endpoint) :
    RateResult × List Int :=
  let ts := timestamps.filter (fun t => now - t < DAILY_WINDOW_MS)
  match endpoint with
  | .upload =>
    let recent := ts.filter (fun t => now - t < WINDOW_MS)
    if MAX_REQUESTS_UPLOAD ≤ recent.length then
      (⟨false, some (WINDOW_MS - (now - recent.headD 0)), some .minute⟩, ts)
    else (⟨true, none, none⟩, ts ++ [now])
  | .chat =>
    if MAX_REQUESTS_PER_DAY ≤ ts.length then
      (⟨false, some (DAILY_WINDOW_MS - (now - ts.headD 0)), some .daily⟩, ts)
    else
      let recentMinute := ts.filter (fun t => now - t < WINDOW_MS)
      if MAX_REQUESTS_PER_MINUTE ≤ recentMinute.length then
        (⟨false, some (WINDOW_MS - (now - recentMinute.headD 0)), some .minute⟩, ts)
      else (⟨true, none, none⟩, ts ++ [now])

/-- A sequence of chat admission checks for one client starting from a fresh
entry: each request at its timestamp, threading the stored list. -/
def chatSession (times : List Int) : List RateResult :=
  (times.foldl
    (fun acc t =>
      let r := checkRateLimit acc.1 t .chat
      (r.2, acc.2 ++ [r.1]))
    (([] : List Int), ([] : List RateResult))).2

/-! ## PageTagger (`src/lib/pdf-processor.ts`) -/

/-- One extracted page. -/
structure PageText where
  pageNumber : Nat
  text : String
deriving DecidableEq, Repr

/-- The collection loop of `extractPagesFromPDF`: keep non-empty page texts
with their 1-based position in the original sequence (`i` is the number of
pages already consumed). -/
def collectPages : List String → Nat → List PageText
  | [], _ => []
  | t :: rest, i =>
    if 0 < t.length then ⟨i + 1, t⟩ :: collectPages rest (i + 1)
    else collectPages rest (i + 1)

/-- `extractPagesFromPDF`, from the point where `pdf-parse` has produced one
raw text per page (the PDF decoding itself is external I/O): each page text is
trimmed by the page renderer, then empty pages are dropped while their
1-based original index is kept. -/
def extractPagesFromPDF (pageTexts : List String) : List PageText :=
  collectPages (pageTexts.map jsTrim) 0

/-- The fixed block separator of the Tagged Corpus Blob. -/
def tcbSeparator : String := "\n\n---\n\n"

/-- One `[DOCUMENT: name | PAGE: n]\ntext` block. -/
def markerBlock (documentName : String) (n : Nat) (text : String) : String :=
  "[DOCUMENT: " ++ documentName ++ " | PAGE: " ++ toString n ++ "]\n" ++ text

/-- `formatPagesForVectorStore`: join the marker blocks with the fixed
separator. -/
def formatPagesForVectorStore (documentName : String) (pages : List PageText) : String :=
  String.intercalate tcbSeparator
    (pages.map fun page => markerBlock documentName page.pageNumber page.text)

/-! ## StreamCoordinator: the chat route's stream session

The `for await` loop over upstream events and the finalisation code that emits
the terminal `done` frame, from the current chat route.  Frames forwarded
downstream during streaming carry the delta text verbatim and are not needed
by the claims; the model tracks the session state they are computed from. -/

/-- One upstream `file_search` result (`score` is never read). -/
structure SearchResult where
  filename : Option String := none
  text : Option String := none
deriving DecidableEq, Repr

/-- One item of `response.output` in a completion event: the annotation
filenames of its content blocks, and an optional embedded
`file_search_call.results` list. -/
structure OutputItem where
  annFilenames : List (Option String) := []
  fsResults : Option (List SearchResult) := none
deriving DecidableEq, Repr

/-- Upstream stream events, as the route discriminates them.  `fileSearch`
covers the three `response.file_search_call.*` event types (all handled by one
branch); `completed` covers `response.completed` / `response.done`, carrying
the `output` items and the filenames its deep scan finds; `other` is any
further event type, which the route ignores. -/
inductive StreamEvent where
  | textDelta (delta : String)
  | fileSearch (results : Option (List SearchResult))
  | textDone
  | completed (output : Option (List OutputItem)) (deepFilenames : List String)
  | other
deriving DecidableEq, Repr

/-- Per-request session state: the accumulated source list and answer text. -/
structure SessionState where
  allSources : List Source := []
  fullText : String := ""
deriving DecidableEq, Repr

/-- The route's `addSource` helper: deduplicate by `(document, page ?? 0)`,
append otherwise. -/
def addSource (l : List Source) (src : Source) : List Source :=
  if l.any (fun s => s.document = src.document && s.page.getD 0 == src.page.getD 0) then l
  else l ++ [src]

/-- `result.text ? extractPageFromChunkText(result.text) : undefined`. -/
def resultPage (r : SearchResult) : Option Nat :=
  match r.text with
  | some t => if t = "" then none else extractPageFromChunkText t
  | none => none

/-- Processing of one `file_search` result: a source from its filename (with
any page recovered from the chunk text), then every source extracted from the
chunk text. -/
def processSearchResult (l : List Source) (r : SearchResult) : List Source :=
  let l1 := match r.filename with
    | some f => if f = "" then l else addSource l ⟨f, resultPage r⟩
    | none => l
  match r.text with
  | some t => if t = "" then l1 else (extractSourcesFromText t).foldl addSource l1
  | none => l1

/-- Processing of one completion `output` item: annotation filenames (no
page), then embedded search results (page recovered from chunk text). -/
def processOutputItem (l : List Source) (item : OutputItem) : List Source :=
  let l1 := item.annFilenames.foldl
    (fun acc f => match f with
      | some fn => if fn = "" then acc else addSource acc ⟨fn, none⟩
      | none => acc) l
  match item.fsResults with
  | some rs =>
    rs.foldl
      (fun acc r => match r.filename with
        | some fn => if fn = "" then acc else addSource acc ⟨fn, resultPage r⟩
        | none => acc) l1
  | none => l1

/-- One step of the event loop. -/
def processEvent (st : SessionState) : StreamEvent → SessionState
  | .textDelta d => if d = "" then st else { st with fullText := st.fullText ++ d }
  | .fileSearch none => st
  | .fileSearch (some results) =>
    { st with allSources := results.foldl processSearchResult st.allSources }
  | .textDone =>
    { st with allSources := (extractSourcesFromText st.fullText).foldl addSource st.allSources }
  | .completed output deepFilenames =>
    let l1 := match output with
      | none => st.allSources
      | some items => items.foldl processOutputItem st.allSources
    { st with allSources := (deepFilenames.foldl
        (fun acc f => if f = "" then acc else addSource acc ⟨f, none⟩) l1) }
  | .other => st

/-- The whole event loop. -/
def processEvents (st : SessionState) : List StreamEvent → SessionState
  | [] => st
  | e :: es => processEvents (processEvent st e) es

/-- The fresh session. -/
def initialSession : SessionState := {}

/-- The sort comparator of the route, as a total preorder:
documents ascending (`localeCompare` modelled as code-point order, which
coincides with it on the repository's ASCII filenames), then `page || 0`
ascending. -/
def sourceLE (a b : Source) : Bool :=
  if a.document = b.document then a.page.getD 0 ≤ b.page.getD 0
  else a.document < b.document

/-- Stable insertion: `x` goes after every element ≤ it. -/
def insertLE (le : α → α → Bool) (x : α) : List α → List α
  | [] => [x]
  | y :: ys => if le y x then y :: insertLE le x ys else x :: y :: ys

/-- Stable sort (JS `Array.prototype.sort` is stable since ES2019, and a
stable sort under a total preorder is unique). -/
def stableSort (le : α → α → Bool) (l : List α) : List α :=
  l.foldl (fun acc x => insertLE le x acc) []

/-- The filename allow-list of the last-resort fallback. -/
def knownFiles : List String := ["Policies001.pdf", "PoliciesEn001.pdf"]

/-- `kf.replace(".pdf", "")`. -/
def stripPdfSuffix (kf : String) : String :=
  strOf (replaceFirstSub kf.toList ".pdf".toList [])

/-- The terminal `done` frame. -/
structure DoneFrame where
  answer : String
  sources : List Source
  noSources : Bool
deriving DecidableEq, Repr

/-- The two fallbacks that run after the event loop when the accumulated list
is still empty: extraction from the full answer text, then the known-filename
mention scan. -/
def fallbackSources (st : SessionState) : List Source :=
  let s1 := if st.allSources.isEmpty then
      (extractSourcesFromText st.fullText).foldl addSource st.allSources
    else st.allSources
  if s1.isEmpty then
    knownFiles.foldl
      (fun l kf =>
        if includesS st.fullText (stripPdfSuffix kf) || includesS st.fullText kf then
          addSource l ⟨kf, none⟩
        else l) s1
  else s1

/-- The sorted sources of the terminal frame. -/
def finalSources (st : SessionState) : List Source :=
  stableSort sourceLE (fallbackSources st)

/-- The cleaned, output-scrubbed answer of the terminal frame. -/
def finalAnswer (st : SessionState) : String :=
  filterOutput (cleanText st.fullText)

/-- `!safeAnswer || safeAnswer.includes(...)`: the answer is empty or a
canonical "not found" phrase. -/
def isNotFoundAnswerB (a : String) : Bool :=
  a = "" || includesS a "لم يتم العثور" || includesS a "Not found in the provided"

/-- Finalisation after the event loop: fallback extraction from the answer
text when no source was found, then the known-filename mention fallback, then
sort; clean and scrub the answer; `noSources` is set exactly when the source
list is empty and the answer is empty or a canonical "not found" phrase.  The
`answer` field is always the scrubbed cleaned text. -/
def finalize (st : SessionState) : DoneFrame :=
  { answer := finalAnswer st, sources := finalSources st,
    noSources := (finalSources st).isEmpty && isNotFoundAnswerB (finalAnswer st) }

/-- End-to-end session: consume the events, then finalise. -/
def runSession (events : List StreamEvent) : DoneFrame :=
  finalize (processEvents initialSession events)

/-- The canonical English "not found" phrase from the system prompt. -/
def enNotFound : String := "Not found in the provided documents."

/-! ## Admission (the pre-upstream part of `POST`)

Everything before the upstream call: the rate-limit gate, request validation,
and the content filter.  A `rejected` outcome is a plain JSON response (never
a stream, hence never a stream `error` frame); `admitted` means the route
proceeds to call the upstream service. -/

/-- `Math.ceil(ms / 1000)` over integers. -/
def jsCeilDiv1000 (ms : Int) : Int := -((-ms).fdiv 1000)

/-- `Math.ceil((rateCheck.retryAfterMs || 60000) / 1000)` — note `||` treats
`0` as missing. -/
def retrySeconds (retryAfterMs : Option Int) : Int :=
  let ms := match retryAfterMs with
    | some m => if m = 0 then 60000 else m
    | none => 60000
  jsCeilDiv1000 ms

/-- Outcome of the admission gate. -/
inductive AdmissionOutcome where
  | rejected (status : Nat) (error : String) (retryAfterSecs : Option Int)
      (category : Option FilterCategory)
  | admitted (message : String)
deriving DecidableEq, Repr

/-- The admission gate: rate-limit rejection (429 with `Retry-After` seconds
and error `daily_limit`/`rate_limit`), then request validation (400), then the
content filter (400 with `errorCategory`); otherwise the request proceeds
upstream. -/
def admission (rate : RateResult) (message : Option String) : AdmissionOutcome :=
  if rate.allowed = false then
    .rejected 429 (if rate.reason = some .daily then "daily_limit" else "rate_limit")
      (some (retrySeconds rate.retryAfterMs)) none
  else
    match message with
    | none => .rejected 400 "Message is required." none none
    | some msg =>
      if jsTrim msg = "" then .rejected 400 "Message is required." none none
      else
        let fr := filterInput msg
        if fr.blocked then .rejected 400 "content_blocked" none fr.category
        else .admitted msg

/-! ## Scenario inputs used by the claims -/

/-- C1 scenario: a retrieval result contributes a page-less source for a
document, then the answer's canonical marker contributes a page-qualified
source for the same document. -/
def sc1Events : List StreamEvent :=
  [.fileSearch (some [{ filename := some "Policies001.pdf", text := none }]),
   .textDelta "[DOCUMENT: Policies001.pdf | PAGE: 5]",
   .textDone]

/-- C2 counterexample stream: no `file_search` event at all, but the
completion event carries an annotation filename. -/
def sc2Events : List StreamEvent :=
  [.textDelta enNotFound,
   .completed (some [{ annFilenames := [some "Policies001.pdf"] }]) []]

/-- C3 scenario: the spec's input text plus its retrieval-result event. -/
def sc3Events : List StreamEvent :=
  [.fileSearch (some [{ filename := some "Policy.pdf", text := some "... page 7 ..." }]),
   .textDelta "[DOCUMENT: Policy.pdf | PAGE: 5]\ntext",
   .textDone]

/-- C6 counterexample answer: a citation in the Arabic natural-language
dialect, which the cleaning pass does not strip. -/
def c6Bad : String := "انظر صفحة 5 من Policies001.pdf"

/-- C6 companion answer: citations only in the two dialects the cleaning pass
does strip. -/
def c6Good : String := "Answer text.\n[DOCUMENT: Policies001.pdf | PAGE: 3] 【1:2†Policies001.pdf】"

/-- An event is source-less when the route's loop can harvest no citation
from it: a text delta, a `file_search` event without results, the text-done
marker, a completion without output items or deep-scan filenames, or an
ignored event. -/
def sourcelessEvent : StreamEvent → Bool
  | .textDelta _ => true
  | .fileSearch r => r.isNone
  | .textDone => true
  | .completed o deep => o.isNone && deep.isEmpty
  | .other => true

/-! ## Well-formedness predicates for C10 -/

/-- No two entries share the deduplication key `(document, page ?? 0)`. -/
def keyUniqueB : List Source → Bool
  | [] => true
  | s :: rest =>
    !(rest.any (fun x => x.document = s.document && x.page.getD 0 == s.page.getD 0)) &&
    keyUniqueB rest

/-- Every present page number is positive. -/
def pagesPositiveB (l : List Source) : Bool :=
  l.all fun s => match s.page with
    | some p => decide (0 < p)
    | none => true

/-! ## Theorems -/

/-- Claim C1, counterexample: in the C1 scenario the terminal done frame keeps
the page-less entry alongside the page-qualified one — the final sources list
is not the single merged page-qualified entry the claim requires. -/
theorem claim_C1_counterexample :
    (runSession sc1Events).sources =
      [⟨"Policies001.pdf", none⟩, ⟨"Policies001.pdf", some 5⟩] ∧
    (runSession sc1Events).sources ≠ [⟨"Policies001.pdf", some 5⟩] := by
  decide

/-- Claim C1 (amended): a page-less Source never suppresses a later-found
page-qualified Source for the same document — `addSource` appends the
page-qualified entry whenever its key `(document, page)` is new — but the two
entries do not merge: the page-less entry survives alongside the page-qualified
one, because the deduplication key treats a missing page as 0, distinct from
any positive page. -/
theorem claim_C1_amended (l : List Source) (d : String) (p : Nat)
    (_hp : 0 < p)
    (hmem : (⟨d, none⟩ : Source) ∈ l)
    (hnew : l.any (fun s => s.document = d && s.page.getD 0 == p) = false) :
    addSource l ⟨d, some p⟩ = l ++ [⟨d, some p⟩] ∧
    (⟨d, none⟩ : Source) ∈ addSource l ⟨d, some p⟩ := by
  have hcond : (l.any fun s =>
      s.document = (⟨d, some p⟩ : Source).document &&
      s.page.getD 0 == (⟨d, some p⟩ : Source).page.getD 0) = false := hnew
  constructor
  · simp only [addSource, hcond, Bool.false_eq_true, if_false]
  · simp only [addSource, hcond, Bool.false_eq_true, if_false]
    exact List.mem_append_left _ hmem

/-- Claim C1, witness for the amended theorem. -/
theorem claim_C1_amended_witness :
    addSource [⟨"Policies001.pdf", none⟩] ⟨"Policies001.pdf", some 5⟩ =
      [⟨"Policies001.pdf", none⟩, ⟨"Policies001.pdf", some 5⟩] ∧
    (⟨"Policies001.pdf", none⟩ : Source) ∈
      addSource [⟨"Policies001.pdf", none⟩] ⟨"Policies001.pdf", some 5⟩ :=
  claim_C1_amended [⟨"Policies001.pdf", none⟩] "Policies001.pdf" 5
    (by decide) (by decide) (by decide)

/-- Claim C3, counterexample: the spec scenario does not produce
`[{Policy.pdf, 5}, {Policy.pdf, 7}]` — no chunk-page pattern matches the bare
phrase `page 7` (they all require a `:`/`=` separator, parentheses, dashes, or
Arabic wording), so page 7 is never extracted. -/
theorem claim_C3_counterexample :
    (runSession sc3Events).sources ≠
      [⟨"Policy.pdf", some 5⟩, ⟨"Policy.pdf", some 7⟩] := by
  decide

/-- Claim C3 (amended): the scenario yields
`[{document := Policy.pdf}, {document := Policy.pdf, page := 5}]` — the
retrieval event contributes a page-less source (its snippet's `page 7` matches
no page-extraction pattern), the canonical marker contributes page 5, and the
page-less entry sorts first. -/
theorem claim_C3_amended :
    (runSession sc3Events).sources =
      [⟨"Policy.pdf", none⟩, ⟨"Policy.pdf", some 5⟩] := by
  decide

/-- Claim C5, counterexample: a session that accumulates no text and no
sources emits a done frame whose `answer` field is the empty string, not the
"not found" phrase. -/
theorem claim_C5_counterexample :
    (runSession []).answer = "" ∧
    (runSession []).answer ≠ enNotFound ∧
    (runSession []).sources = [] := by
  decide

/-- Claim C5 (amended): the done frame's `answer` field is always the scrubbed
cleaned accumulated text — the route never substitutes the "not found" phrase —
and the empty-answer/no-evidence condition is signalled through the `noSources`
flag instead. -/
theorem claim_C5_amended (st : SessionState) :
    (finalize st).answer = filterOutput (cleanText st.fullText) ∧
    ((finalize st).sources = [] → filterOutput (cleanText st.fullText) = "" →
      (finalize st).noSources = true) := by
  constructor
  · rfl
  · intro hs ha
    simp only [finalize, finalAnswer] at hs ⊢
    rw [hs, ha]
    decide

/-- Claim C5, witness for the amended theorem. -/
theorem claim_C5_witness :
    (finalize initialSession).answer = filterOutput (cleanText "") ∧
    (finalize initialSession).noSources = true := by
  refine ⟨(claim_C5_amended initialSession).1, ?_⟩
  exact (claim_C5_amended initialSession).2 (by decide) (by decide)

/-- Claim C6, counterexample: an answer citing via the Arabic page-phrase
dialect is unchanged by the cleaning pass, so re-running extraction on the
cleaned answer still returns a source. -/
theorem claim_C6_counterexample :
    extractSourcesFromText (cleanText c6Bad) ≠ [] := by
  decide

/-- Claim C6 (amended): the cleaning pass strips only the canonical
`[DOCUMENT: … | PAGE: …]` markers, the page-qualified `【n:m†file】` annotation
markers, and a trailing `Sources:`/`المصادر:` block — for an answer citing only
through those dialects re-extraction on the cleaned answer yields `[]`, but an
answer citing through the Arabic natural-language dialect survives cleaning
verbatim and re-extracts the same source, so extraction is not idempotent on
cleaned answers in general. -/
theorem claim_C6_amended :
    cleanText c6Bad = c6Bad ∧
    extractSourcesFromText (cleanText c6Bad) = [⟨"Policies001.pdf", some 5⟩] ∧
    cleanText c6Good = "Answer text." ∧
    extractSourcesFromText (cleanText c6Good) = [] := by
  refine ⟨by decide, by decide, by decide, by decide⟩

/-- Flipping the deduplication-key test is sound: the key comparison is
symmetric. -/
theorem sameKey_flip (a s : Source)
    (h : (a.document = s.document && a.page.getD 0 == s.page.getD 0) = false) :
    (s.document = a.document && s.page.getD 0 == a.page.getD 0) = false := by
  by_cases h1 : a.document = s.document
  · by_cases h2 : a.page.getD 0 = s.page.getD 0
    · simp [h1, h2] at h
    · have h2' : s.page.getD 0 ≠ a.page.getD 0 := fun hh => h2 hh.symm
      simp [h2']
  · have h1' : s.document ≠ a.document := fun hh => h1 hh.symm
    simp [h1']

/-- Appending an entry whose key is absent preserves key-uniqueness. -/
theorem keyUniqueB_append_single (l : List Source) (s : Source)
    (h : (l.any fun x => x.document = s.document && x.page.getD 0 == s.page.getD 0) = false)
    (hu : keyUniqueB l = true) :
    keyUniqueB (l ++ [s]) = true := by
  induction l with
  | nil => rfl
  | cons a t ih =>
    simp only [List.any_cons, Bool.or_eq_false_iff] at h
    simp only [keyUniqueB, Bool.and_eq_true, Bool.not_eq_true'] at hu
    simp only [List.cons_append, keyUniqueB, Bool.and_eq_true, Bool.not_eq_true']
    refine ⟨?_, ih h.2 hu.2⟩
    simp [List.append_eq, List.any_append, hu.1, sameKey_flip a s h.1]

/-- `addSource` preserves key-uniqueness. -/
theorem addSource_keyUnique (l : List Source) (src : Source)
    (hu : keyUniqueB l = true) :
    keyUniqueB (addSource l src) = true := by
  unfold addSource
  by_cases hany : (l.any fun s =>
      s.document = src.document && s.page.getD 0 == src.page.getD 0) = true
  · simp [hany, hu]
  · have hf := Bool.eq_false_iff.mpr hany
    simp only [hf, Bool.false_eq_true, if_false]
    exact keyUniqueB_append_single l src hf hu

/-- The page stored by the `add` closure is always positive when present. -/
theorem pagePos_normalized (page : Option Nat) :
    (match (match page with
      | some n => if 0 < n then some n else none
      | none => (none : Option Nat)) with
      | some p => decide (0 < p)
      | none => true) = true := by
  match page with
  | none => rfl
  | some n =>
    by_cases hn : 0 < n
    · simp [hn]
    · simp [hn]

/-- `addExtracted` preserves both C10 invariants. -/
theorem addExtracted_wf (l : List Source) (doc : String) (page : Option Nat)
    (hu : keyUniqueB l = true) (hp : pagesPositiveB l = true) :
    keyUniqueB (addExtracted l doc page) = true ∧
    pagesPositiveB (addExtracted l doc page) = true := by
  unfold addExtracted
  by_cases hany : (l.any fun s => s.document = doc &&
      s.page.getD 0 == (match page with
        | some n => if 0 < n then some n else none
        | none => (none : Option Nat)).getD 0) = true
  · simp only [hany, if_true]
    exact ⟨hu, hp⟩
  · have hf := Bool.eq_false_iff.mpr hany
    simp only [hf, Bool.false_eq_true, if_false]
    constructor
    · exact keyUniqueB_append_single l _ hf hu
    · unfold pagesPositiveB at hp ⊢
      rw [List.all_append, hp, Bool.true_and, List.all_cons, List.all_nil,
        Bool.and_true]
      exact pagePos_normalized page

/-- Folding `addExtracted` over any candidate list preserves the invariants. -/
theorem foldl_addExtracted_wf (cands : List (String × Option Nat)) :
    ∀ l : List Source, keyUniqueB l = true → pagesPositiveB l = true →
    keyUniqueB (cands.foldl (fun acc c => addExtracted acc c.1 c.2) l) = true ∧
    pagesPositiveB (cands.foldl (fun acc c => addExtracted acc c.1 c.2) l) = true := by
  induction cands with
  | nil => intro l hu hp; exact ⟨hu, hp⟩
  | cons c cs ih =>
    intro l hu hp
    have h := addExtracted_wf l c.1 c.2 hu hp
    exact ih _ h.1 h.2

/-- Claim C10: every list `extractSourcesFromText` produces has only positive
page numbers and no two entries sharing the key `(document, page ?? 0)`; the
marker `【0:0†file】` yields a page-less Source; and `addSource` preserves
key-uniqueness on every insertion. -/
theorem claim_C10 :
    (∀ text : String,
      keyUniqueB (extractSourcesFromText text) = true ∧
      pagesPositiveB (extractSourcesFromText text) = true) ∧
    extractSourcesFromText "【0:0†file】" = [⟨"file", none⟩] ∧
    (∀ (l : List Source) (src : Source), keyUniqueB l = true →
      keyUniqueB (addSource l src) = true) := by
  refine ⟨fun text => ?_, by decide, fun l src hu => addSource_keyUnique l src hu⟩
  exact foldl_addExtracted_wf (extractCandidates text.toList) [] (by decide) (by decide)

/-- Claim C10, witness. -/
theorem claim_C10_witness :
    keyUniqueB (addSource [⟨"a", none⟩] ⟨"a", some 2⟩) = true :=
  claim_C10.2.2 [⟨"a", none⟩] ⟨"a", some 2⟩ (by decide)

/-- Claim C7: a rate-limit rejection is the non-stream JSON outcome with
status 429 and a `Retry-After` value in seconds; a content-filter block is the
non-stream JSON outcome with status 400 carrying the filter's category; in
both cases the request is never admitted, so no upstream call is made and no
stream `error` frame can be emitted. -/
theorem claim_C7 :
    (∀ (rate : RateResult) (message : Option String),
      rate.allowed = false →
      admission rate message = .rejected 429
        (if rate.reason = some RLReason.daily then "daily_limit" else "rate_limit")
        (some (retrySeconds rate.retryAfterMs)) none ∧
      ∀ m, admission rate message ≠ .admitted m) ∧
    (∀ (rate : RateResult) (msg : String),
      rate.allowed = true → jsTrim msg ≠ "" → (filterInput msg).blocked = true →
      admission rate (some msg) =
        .rejected 400 "content_blocked" none (filterInput msg).category ∧
      ∀ m, admission rate (some msg) ≠ .admitted m) := by
  constructor
  · intro rate message h
    have he : admission rate message = .rejected 429
        (if rate.reason = some RLReason.daily then "daily_limit" else "rate_limit")
        (some (retrySeconds rate.retryAfterMs)) none := by
      simp [admission, h]
    exact ⟨he, fun m hc => by rw [he] at hc; cases hc⟩
  · intro rate msg h1 h2 h3
    have he : admission rate (some msg) =
        .rejected 400 "content_blocked" none (filterInput msg).category := by
      simp [admission, h1, h2, h3]
    exact ⟨he, fun m hc => by rw [he] at hc; cases hc⟩

/-- Claim C7, witness: a concrete rate-limit rejection (5001 ms → 6 s) and a
concrete injection block. -/
theorem claim_C7_witness :
    admission ⟨false, some 5001, some RLReason.minute⟩ (some "hi") =
      .rejected 429 "rate_limit" (some 6) none ∧
    admission ⟨true, none, none⟩ (some "jailbreak") =
      .rejected 400 "content_blocked" none (some FilterCategory.injection) := by
  constructor
  · have h := (claim_C7.1 ⟨false, some 5001, some RLReason.minute⟩ (some "hi") rfl).1
    rw [h]; decide
  · have h := (claim_C7.2 ⟨true, none, none⟩ "jailbreak" rfl (by decide) (by decide)).1
    rw [h]; decide

/-- Dropping leading whitespace passes over any run of spaces. -/
theorem dropWhileSpace_replicate_space (n : Nat) (l : List Char) :
    dropWhileSpace (List.replicate n ' ' ++ l) = dropWhileSpace l := by
  induction n with
  | zero => rfl
  | succ m ih =>
    rw [List.replicate_succ, List.cons_append]
    show (if isSpaceJS ' ' then dropWhileSpace (List.replicate m ' ' ++ l)
      else ' ' :: (List.replicate m ' ' ++ l)) = dropWhileSpace l
    rw [if_pos (by decide), ih]

/-- The character `a` padded with 2000 spaces trims to just `a`. -/
theorem jsTrimList_pad : jsTrimList ('a' :: List.replicate 2000 ' ') = ['a'] := by
  show dropWhileSpace ((dropWhileSpace ('a' :: List.replicate 2000 ' ').reverse).reverse) = ['a']
  rw [List.reverse_cons, List.reverse_replicate, dropWhileSpace_replicate_space]
  decide

/-- 2001 letters trim to themselves. -/
theorem jsTrimList_allas : jsTrimList (List.replicate 2001 'a') = List.replicate 2001 'a' := by
  have h2001 : List.replicate 2001 'a' = 'a' :: List.replicate 2000 'a' := rfl
  have hd : ∀ l : List Char, dropWhileSpace ('a' :: l) = 'a' :: l := fun l => by
    show (if isSpaceJS 'a' then dropWhileSpace l else 'a' :: l) = 'a' :: l
    rw [if_neg (by decide)]
  show dropWhileSpace ((dropWhileSpace (List.replicate 2001 'a').reverse).reverse) =
    List.replicate 2001 'a'
  rw [List.reverse_replicate, h2001, hd, ← h2001, List.reverse_replicate, h2001, hd]

/-- Claim C8, counterexample: `filterInput` trims before measuring, so the
2001-character string made of `a` followed by 2000 spaces is not blocked —
"every 2001-character string is blocked" fails. -/
theorem claim_C8_counterexample :
    (strOf ('a' :: List.replicate 2000 ' ')).length = 2001 ∧
    (filterInput (strOf ('a' :: List.replicate 2000 ' '))).blocked = false := by
  constructor
  · show ('a' :: List.replicate 2000 ' ').length = 2001
    rw [List.length_cons, List.length_replicate]
  · have hpad : jsTrimList (strOf ('a' :: List.replicate 2000 ' ')).toList = ['a'] :=
      jsTrimList_pad
    simp only [filterInput, hpad]
    decide

/-- Claim C8 (amended): `filterInput` blocks the empty string; blocks every
string whose trimmed length exceeds the 2000 ceiling (a 2001-character string
whose surplus is trimmable whitespace can pass); blocks any string matching an
injection pattern with category `injection`; and the checks run in the fixed
priority order length → abuse → injection, returning the single first-match
result. -/
theorem claim_C8_amended :
    filterInput "" = ⟨true, some "Empty message", some .offtopic⟩ ∧
    (∀ s : String, 2000 < (jsTrimList s.toList).length →
      filterInput s = ⟨true, some "Message too long", some .inappropriate⟩) ∧
    (∀ s : String, (jsTrimList s.toList).length ≠ 0 →
      (jsTrimList s.toList).length ≤ 2000 →
      (∃ p ∈ inappropriatePatterns, testPat p (jsTrimList s.toList) = true) →
      filterInput s = ⟨true, some "Inappropriate content detected", some .inappropriate⟩) ∧
    (∀ s : String, (jsTrimList s.toList).length ≠ 0 →
      (jsTrimList s.toList).length ≤ 2000 →
      (∀ p ∈ inappropriatePatterns, testPat p (jsTrimList s.toList) = false) →
      (∃ p ∈ injectionPatterns, testPat p (jsTrimList s.toList) = true) →
      filterInput s = ⟨true, some "Invalid request", some .injection⟩) := by
  refine ⟨by decide, ?_, ?_, ?_⟩
  · intro s hlong
    have h0 : ¬((jsTrimList s.toList).length = 0) := by omega
    unfold filterInput
    rw [if_neg h0, if_pos hlong]
  · intro s h0 hle hex
    have hany : (inappropriatePatterns.any fun p => testPat p (jsTrimList s.toList)) = true := by
      rw [List.any_eq_true]
      obtain ⟨p, hp, ht⟩ := hex
      exact ⟨p, hp, ht⟩
    unfold filterInput
    rw [if_neg h0, if_neg (by omega), if_pos hany]
  · intro s h0 hle hnone hex
    have hanyF : (inappropriatePatterns.any fun p => testPat p (jsTrimList s.toList)) = false := by
      rw [Bool.eq_false_iff]
      intro hc
      rw [List.any_eq_true] at hc
      obtain ⟨p, hp, ht⟩ := hc
      rw [hnone p hp] at ht
      cases ht
    have hany : (injectionPatterns.any fun p => testPat p (jsTrimList s.toList)) = true := by
      rw [List.any_eq_true]
      obtain ⟨p, hp, ht⟩ := hex
      exact ⟨p, hp, ht⟩
    unfold filterInput
    rw [if_neg h0, if_neg (by omega), if_neg (by rw [hanyF]; decide), if_pos hany]

/-- Claim C8, witness: a 2001-character all-`a` string is blocked as too long,
and `jailbreak` is blocked with category `injection`. -/
theorem claim_C8_witness :
    filterInput (strOf (List.replicate 2001 'a')) =
      ⟨true, some "Message too long", some .inappropriate⟩ ∧
    filterInput "jailbreak" = ⟨true, some "Invalid request", some .injection⟩ := by
  constructor
  · refine claim_C8_amended.2.1 _ ?_
    have ht : jsTrimList (strOf (List.replicate 2001 'a')).toList =
        List.replicate 2001 'a' := jsTrimList_allas
    rw [ht, List.length_replicate]
    decide
  · exact claim_C8_amended.2.2.2 "jailbreak" (by decide) (by decide) (by decide) (by decide)

/-- A chat admission check that shows all timestamps inside the burst window
and fewer than the burst cap admits and records `now`. -/
theorem chat_step_allowed (l : List Int) (now : Int)
    (hwin : ∀ t ∈ l, now - t < WINDOW_MS)
    (hlen : l.length < MAX_REQUESTS_PER_MINUTE) :
    checkRateLimit l now .chat = (⟨true, none, none⟩, l ++ [now]) := by
  have hday : ∀ t ∈ l, now - t < DAILY_WINDOW_MS := by
    intro t ht
    have := hwin t ht
    unfold WINDOW_MS at this
    unfold DAILY_WINDOW_MS
    omega
  have hf1 : l.filter (fun t => now - t < DAILY_WINDOW_MS) = l :=
    List.filter_eq_self.mpr fun a ha => decide_eq_true (hday a ha)
  have hf2 : l.filter (fun t => now - t < WINDOW_MS) = l :=
    List.filter_eq_self.mpr fun a ha => decide_eq_true (hwin a ha)
  unfold checkRateLimit
  simp only [hf1, hf2]
  rw [if_neg (by unfold MAX_REQUESTS_PER_DAY MAX_REQUESTS_PER_MINUTE at *; omega),
    if_neg (by unfold MAX_REQUESTS_PER_MINUTE at *; omega)]

/-- A chat admission check at exactly the burst cap, with every timestamp in
the burst window, rejects with reason `minute` and the retry delay measured
from the oldest timestamp. -/
theorem chat_step_minute (l : List Int) (now : Int)
    (hwin : ∀ t ∈ l, now - t < WINDOW_MS)
    (hlen : l.length = MAX_REQUESTS_PER_MINUTE) :
    checkRateLimit l now .chat =
      (⟨false, some (WINDOW_MS - (now - l.headD 0)), some .minute⟩, l) := by
  have hday : ∀ t ∈ l, now - t < DAILY_WINDOW_MS := by
    intro t ht
    have := hwin t ht
    unfold WINDOW_MS at this
    unfold DAILY_WINDOW_MS
    omega
  have hf1 : l.filter (fun t => now - t < DAILY_WINDOW_MS) = l :=
    List.filter_eq_self.mpr fun a ha => decide_eq_true (hday a ha)
  have hf2 : l.filter (fun t => now - t < WINDOW_MS) = l :=
    List.filter_eq_self.mpr fun a ha => decide_eq_true (hwin a ha)
  unfold checkRateLimit
  simp only [hf1, hf2]
  rw [if_neg (by unfold MAX_REQUESTS_PER_DAY MAX_REQUESTS_PER_MINUTE at *; omega),
    if_pos (by unfold MAX_REQUESTS_PER_MINUTE at *; omega)]

/-- Claim C4: the daily cap is evaluated before the burst cap — a client with
`dailyCap` (20) timestamps inside the trailing 24 h is rejected with reason
`daily` even when none of them is in the trailing 60 s; and a fresh client
issuing `burstCap + 1` (6) requests within one second has the first five
admitted and the sixth rejected with reason `minute`. -/
theorem claim_C4 :
    (∀ (ts : List Int) (now : Int),
      MAX_REQUESTS_PER_DAY ≤ ((ts.filter fun t => now - t < DAILY_WINDOW_MS).length) →
      (∀ t ∈ ts, ¬(now - t < WINDOW_MS)) →
      (checkRateLimit ts now .chat).1.allowed = false ∧
      (checkRateLimit ts now .chat).1.reason = some RLReason.daily) ∧
    (∀ t0 t1 t2 t3 t4 t5 : Int,
      t0 ≤ t1 → t1 ≤ t2 → t2 ≤ t3 → t3 ≤ t4 → t4 ≤ t5 → t5 < t0 + 1000 →
      chatSession [t0, t1, t2, t3, t4, t5] =
        [⟨true, none, none⟩, ⟨true, none, none⟩, ⟨true, none, none⟩,
         ⟨true, none, none⟩, ⟨true, none, none⟩,
         ⟨false, some (WINDOW_MS - (t5 - t0)), some RLReason.minute⟩]) := by
  constructor
  · intro ts now hday _hmin
    have h : checkRateLimit ts now .chat =
        (⟨false, some (DAILY_WINDOW_MS -
            (now - ((ts.filter fun t => now - t < DAILY_WINDOW_MS).headD 0))),
          some RLReason.daily⟩,
         ts.filter fun t => now - t < DAILY_WINDOW_MS) := by
      simp only [checkRateLimit]
      rw [if_pos hday]
    rw [h]
    exact ⟨rfl, rfl⟩
  · intro t0 t1 t2 t3 t4 t5 h01 h12 h23 h34 h45 hspan
    have hw0 : ∀ t ∈ ([] : List Int), t0 - t < WINDOW_MS := by
      intro t ht
      cases ht
    have hw1 : ∀ t ∈ [t0], t1 - t < WINDOW_MS := by
      intro t ht
      unfold WINDOW_MS
      simp only [List.mem_singleton] at ht
      omega
    have hw2 : ∀ t ∈ [t0, t1], t2 - t < WINDOW_MS := by
      intro t ht
      unfold WINDOW_MS
      simp only [List.mem_cons, List.mem_singleton] at ht
      rcases ht with rfl | rfl | ht
      · omega
      · omega
      · cases ht
    have hw3 : ∀ t ∈ [t0, t1, t2], t3 - t < WINDOW_MS := by
      intro t ht
      unfold WINDOW_MS
      simp only [List.mem_cons, List.mem_singleton] at ht
      rcases ht with rfl | rfl | rfl | ht
      · omega
      · omega
      · omega
      · cases ht
    have hw4 : ∀ t ∈ [t0, t1, t2, t3], t4 - t < WINDOW_MS := by
      intro t ht
      unfold WINDOW_MS
      simp only [List.mem_cons, List.mem_singleton] at ht
      rcases ht with rfl | rfl | rfl | rfl | ht
      · omega
      · omega
      · omega
      · omega
      · cases ht
    have hw5 : ∀ t ∈ [t0, t1, t2, t3, t4], t5 - t < WINDOW_MS := by
      intro t ht
      unfold WINDOW_MS
      simp only [List.mem_cons, List.mem_singleton] at ht
      rcases ht with rfl | rfl | rfl | rfl | rfl | ht
      · omega
      · omega
      · omega
      · omega
      · omega
      · cases ht
    have s0 := chat_step_allowed [] t0 hw0 (by decide)
    have s1 := chat_step_allowed [t0] t1 hw1 (by simp [MAX_REQUESTS_PER_MINUTE])
    have s2 := chat_step_allowed [t0, t1] t2 hw2 (by simp [MAX_REQUESTS_PER_MINUTE])
    have s3 := chat_step_allowed [t0, t1, t2] t3 hw3 (by simp [MAX_REQUESTS_PER_MINUTE])
    have s4 := chat_step_allowed [t0, t1, t2, t3] t4 hw4 (by simp [MAX_REQUESTS_PER_MINUTE])
    have s5 := chat_step_minute [t0, t1, t2, t3, t4] t5 hw5 (by simp [MAX_REQUESTS_PER_MINUTE])
    simp only [chatSession, List.foldl, s0, s1, s2, s3, s4, s5, List.nil_append,
      List.cons_append, List.headD_cons]

/-- Claim C4, witness: 20 day-old-but-in-window requests reject with `daily`
even with nothing in the last minute; six requests inside one second get five
admissions and a `minute` rejection. -/
theorem claim_C4_witness :
    ((checkRateLimit (List.replicate 20 0) 50000000 .chat).1.allowed = false ∧
      (checkRateLimit (List.replicate 20 0) 50000000 .chat).1.reason =
        some RLReason.daily) ∧
    chatSession [0, 100, 200, 300, 400, 999] =
      [⟨true, none, none⟩, ⟨true, none, none⟩, ⟨true, none, none⟩,
       ⟨true, none, none⟩, ⟨true, none, none⟩,
       ⟨false, some (WINDOW_MS - (999 - 0)), some RLReason.minute⟩] := by
  constructor
  · exact claim_C4.1 (List.replicate 20 0) 50000000 (by decide) (by decide)
  · exact claim_C4.2 0 100 200 300 400 999 (by decide) (by decide) (by decide)
      (by decide) (by decide) (by decide)

/-- The collection loop keeps exactly the non-empty pages, with their 1-based
position in the original sequence. -/
theorem collectPages_eq (l : List String) :
    ∀ i : Nat, collectPages l i =
      ((List.range l.length).filter fun j => decide (0 < (l.getD j "").length)).map
        fun j => ⟨i + j + 1, l.getD j ""⟩ := by
  induction l with
  | nil => intro i; rfl
  | cons t rest ih =>
    intro i
    simp only [List.length_cons, List.range_succ_eq_map, List.filter_cons,
      List.getD_cons_zero, List.filter_map, Function.comp_def, List.getD_cons_succ,
      List.map_map, collectPages]
    by_cases ht : 0 < t.length
    · rw [if_pos ht, if_pos (by exact decide_eq_true ht)]
      simp only [List.map_cons]
      refine congrArg (fun xs => _ :: xs) ?_
      rw [ih (i + 1), List.map_map]
      refine List.map_congr_left ?_
      intro j hj
      show (⟨i + 1 + j + 1, rest.getD j ""⟩ : PageText) = ⟨i + (j + 1) + 1, rest.getD j ""⟩
      congr 1
      omega
    · rw [if_neg ht, if_neg (by simp [ht])]
      rw [ih (i + 1), List.map_map]
      refine List.map_congr_left ?_
      intro j hj
      show (⟨i + 1 + j + 1, rest.getD j ""⟩ : PageText) = ⟨i + (j + 1) + 1, rest.getD j ""⟩
      congr 1
      omega

/-- A non-empty string has positive length. -/
theorem length_pos_of_ne_empty (s : String) (h : s ≠ "") : 0 < s.length := by
  cases s with
  | mk data =>
    cases data with
    | nil => exact absurd rfl h
    | cons c cs =>
      simp [String.length]

/-- Claim C9: for every document name and page-text list with at least one
non-empty (trimmed) page, the extracted page list has exactly one entry per
non-empty page carrying its 1-based original index and its trimmed text, and
the Tagged Corpus Blob is the join of one marker block per such page with the
fixed separator. -/
theorem claim_C9 (name : String) (pageTexts : List String)
    (hne : ∃ t ∈ pageTexts, jsTrim t ≠ "") :
    extractPagesFromPDF pageTexts =
      ((List.range pageTexts.length).filter
        (fun j => decide (0 < ((pageTexts.map jsTrim).getD j "").length))).map
        (fun j => ⟨j + 1, (pageTexts.map jsTrim).getD j ""⟩) ∧
    formatPagesForVectorStore name (extractPagesFromPDF pageTexts) =
      String.intercalate tcbSeparator
        (((List.range pageTexts.length).filter
          (fun j => decide (0 < ((pageTexts.map jsTrim).getD j "").length))).map
          (fun j => markerBlock name (j + 1) ((pageTexts.map jsTrim).getD j ""))) ∧
    extractPagesFromPDF pageTexts ≠ [] := by
  have hA : extractPagesFromPDF pageTexts =
      ((List.range pageTexts.length).filter
        (fun j => decide (0 < ((pageTexts.map jsTrim).getD j "").length))).map
        (fun j => ⟨j + 1, (pageTexts.map jsTrim).getD j ""⟩) := by
    unfold extractPagesFromPDF
    rw [collectPages_eq]
    simp only [List.length_map, Nat.zero_add]
  refine ⟨hA, ?_, ?_⟩
  · rw [hA]
    unfold formatPagesForVectorStore
    rw [List.map_map]
    rfl
  · rw [hA]
    obtain ⟨t, htmem, htne⟩ := hne
    obtain ⟨j, hj, hget⟩ := List.mem_iff_getElem.mp htmem
    have hjm : j < (pageTexts.map jsTrim).length := by
      rw [List.length_map]; exact hj
    have hgd : (pageTexts.map jsTrim).getD j "" = jsTrim t := by
      rw [List.getD_eq_getElem _ _ hjm, List.getElem_map, hget]
    have hpos : 0 < ((pageTexts.map jsTrim).getD j "").length := by
      rw [hgd]
      exact length_pos_of_ne_empty _ htne
    have hjf : j ∈ (List.range pageTexts.length).filter
        (fun j => decide (0 < ((pageTexts.map jsTrim).getD j "").length)) := by
      rw [List.mem_filter]
      exact ⟨List.mem_range.mpr hj, decide_eq_true hpos⟩
    exact List.ne_nil_of_mem (List.mem_map_of_mem _ hjf)

/-- Claim C9, witness: pages `["a", "", "b"]` produce markers PAGE 1 and
PAGE 3. -/
theorem claim_C9_witness :
    formatPagesForVectorStore "D.pdf" (extractPagesFromPDF ["a", "", "b"]) =
      "[DOCUMENT: D.pdf | PAGE: 1]\na\n\n---\n\n[DOCUMENT: D.pdf | PAGE: 3]\nb" := by
  have h := claim_C9 "D.pdf" ["a", "", "b"] (by decide)
  rw [h.2.1]
  decide

/-- Rebuilding a string from its characters is the identity. -/
theorem strOf_toList (s : String) : strOf s.toList = s := by
  cases s
  rfl

/-- String concatenation concatenates the character data. -/
theorem string_append_data (s t : String) : (s ++ t).data = s.data ++ t.data :=
  String.data_append s t

/-- No prefix of the canonical English "not found" phrase contains any
citation marker. -/
theorem enPrefix_extract_empty :
    ∀ n, n ≤ 36 → extractSourcesFromText (strOf (enNotFound.toList.take n)) = [] := by
  decide

/-- Extraction finds nothing in any string that the canonical phrase extends. -/
theorem extract_of_append_enNotFound (s t : String) (h : s ++ t = enNotFound) :
    extractSourcesFromText s = [] := by
  have hd : s.data ++ t.data = enNotFound.data := by
    rw [← String.data_append, h]
  have hlen : s.data.length ≤ 36 := by
    have hc := congrArg List.length hd
    rw [List.length_append] at hc
    have h36 : enNotFound.data.length = 36 := by decide
    omega
  have hs : s.data = enNotFound.data.take s.data.length := by
    rw [← hd, List.take_left]
  have hone := enPrefix_extract_empty s.data.length hlen
  have htl : enNotFound.toList.take s.data.length = s.data := by
    show enNotFound.data.take s.data.length = s.data
    exact hs.symm
  rw [htl] at hone
  have hstr : strOf s.data = s := strOf_toList s
  rw [hstr] at hone
  exact hone

/-- The accumulated answer text only ever grows during the event loop. -/
theorem processEvents_fullText_mono (es : List StreamEvent) :
    ∀ st : SessionState, ∃ u : String,
      (processEvents st es).fullText = st.fullText ++ u := by
  induction es with
  | nil =>
    intro st
    exact ⟨"", (String.append_empty st.fullText).symm⟩
  | cons e es ih =>
    intro st
    obtain ⟨u, hu⟩ := ih (processEvent st e)
    cases e with
    | textDelta d =>
      by_cases hd : d = ""
      · refine ⟨u, ?_⟩
        show (processEvents (processEvent st (.textDelta d)) es).fullText = _
        simp only [processEvent, hd, if_true] at hu ⊢
        exact hu
      · refine ⟨d ++ u, ?_⟩
        show (processEvents (processEvent st (.textDelta d)) es).fullText = _
        simp only [processEvent, hd, if_false] at hu ⊢
        rw [hu, String.append_assoc]
    | fileSearch r =>
      cases r with
      | none => exact ⟨u, hu⟩
      | some results => exact ⟨u, hu⟩
    | textDone => exact ⟨u, hu⟩
    | completed o deep => exact ⟨u, hu⟩
    | other => exact ⟨u, hu⟩

/-- A stream of source-less events whose accumulated text is the canonical
phrase accumulates no sources: the only harvesting step it can run is the
text-done extraction, which finds nothing in a prefix of the phrase. -/
theorem allSources_nil_of_sourceless (es : List StreamEvent) :
    ∀ st : SessionState, (∀ e ∈ es, sourcelessEvent e = true) →
      st.allSources = [] →
      (processEvents st es).fullText = enNotFound →
      (processEvents st es).allSources = [] := by
  induction es with
  | nil =>
    intro st _ h0 _
    exact h0
  | cons e es ih =>
    intro st hben h0 hfull
    have hbe : sourcelessEvent e = true := hben e (List.mem_cons_self e es)
    have hbens : ∀ x ∈ es, sourcelessEvent x = true :=
      fun x hx => hben x (List.mem_cons_of_mem e hx)
    cases e with
    | textDelta d =>
      refine ih (processEvent st (.textDelta d)) hbens ?_ hfull
      by_cases hd : d = "" <;> simp [processEvent, hd, h0]
    | fileSearch r =>
      cases r with
      | none => exact ih _ hbens h0 hfull
      | some results => simp [sourcelessEvent, Option.isNone] at hbe
    | textDone =>
      have hfull' : (processEvents (processEvent st .textDone) es).fullText = enNotFound :=
        hfull
      refine ih (processEvent st .textDone) hbens ?_ hfull'
      obtain ⟨u, hu⟩ := processEvents_fullText_mono es (processEvent st .textDone)
      rw [hu] at hfull'
      have hfsplit : st.fullText ++ u = enNotFound := hfull'
      have hex : extractSourcesFromText st.fullText = [] :=
        extract_of_append_enNotFound st.fullText u hfsplit
      show ((extractSourcesFromText st.fullText).foldl addSource st.allSources) = []
      rw [hex, h0]
      rfl
    | completed o deep =>
      cases o with
      | some items => simp [sourcelessEvent, Option.isNone] at hbe
      | none =>
        cases deep with
        | cons f fs => simp [sourcelessEvent] at hbe
        | nil =>
          refine ih (processEvent st (.completed none [])) hbens ?_ hfull
          exact h0
    | other => exact ih _ hbens h0 hfull

/-- Claim C2 (amended): for every stream with zero retrieval-result events
whose completion event carries no annotations or embedded search results, if
the accumulated answer equals the canonical "not found" phrase then the
terminal done frame carries an empty sources list (and `noSources` is set), so
in particular no Source is fabricated from a filename mention. -/
theorem claim_C2_amended (es : List StreamEvent)
    (hben : ∀ e ∈ es, sourcelessEvent e = true)
    (hfull : (processEvents initialSession es).fullText = enNotFound) :
    (runSession es).sources = [] ∧ (runSession es).noSources = true := by
  have hsrc : (processEvents initialSession es).allSources = [] :=
    allSources_nil_of_sourceless es initialSession hben rfl hfull
  have hstate : processEvents initialSession es = ⟨[], enNotFound⟩ := by
    have hh : processEvents initialSession es =
        ⟨(processEvents initialSession es).allSources,
         (processEvents initialSession es).fullText⟩ := rfl
    rw [hsrc, hfull] at hh
    exact hh
  show (finalize (processEvents initialSession es)).sources = [] ∧
    (finalize (processEvents initialSession es)).noSources = true
  rw [hstate]
  decide

/-- Claim C2, witness: the plain not-found stream. -/
theorem claim_C2_witness :
    (runSession [.textDelta enNotFound, .textDone]).sources = [] ∧
    (runSession [.textDelta enNotFound, .textDone]).noSources = true :=
  claim_C2_amended [.textDelta enNotFound, .textDone] (by decide) (by decide)

/-- Claim C2, counterexample: a stream with zero retrieval-result events whose
answer is exactly the canonical phrase can still emit a non-empty sources list
when the completion event carries an annotation filename — the claim as stated
fails on such streams. -/
theorem claim_C2_counterexample :
    (sc2Events.all fun e => match e with
      | .fileSearch _ => false
      | _ => true) = true ∧
    (processEvents initialSession sc2Events).fullText = enNotFound ∧
    (runSession sc2Events).sources ≠ [] := by
  refine ⟨by decide, by decide, by decide⟩

end NDMO

